import Mathlib

/-!
Verification of the staking-and-referral accounting engine.

The development shallowly embeds two on-chain programs:

* the referral staking program (lib-complete.rs): global pool state,
  per-user accounts, the reward/penalty calculators, and the instruction
  bodies for stake, unstake, claim_rewards, compound_rewards,
  update_referrer_rewards, add_to_reward_pool and update_parameters;
* the referral tracker program (referral-tracker lib.rs): the
  record_referral instruction with its checked (MathOverflow-raising)
  arithmetic.

Machine integers are modelled as Nat with explicit 2^64 / 2^128 bounds:
the Rust checked_add / checked_mul / checked_sub combinators become
Option-valued functions, the pervasive unwrap_or fallbacks become
Option.getD, and the final `as u64` narrowing casts become % 2^64.
Signed 64-bit timestamps are modelled as Int (timestamp arithmetic in the
source cannot reach the i64 boundary for meaningful clock values, and no
claim depends on i64 wrap-around).

External collaborators (SPL token transfers, account wiring, signer
checks) are out of scope per the spec; the embedding keeps the exact
order of validation and field mutation of each instruction body and
reports the transfer amounts the instruction would move.
-/

/-- Modulus of unsigned 64-bit arithmetic. -/
def U64_MOD : Nat := 2 ^ 64

/-- Modulus of unsigned 128-bit arithmetic. -/
def U128_MOD : Nat := 2 ^ 128

/-- Rust u64::checked_add: some sum when it fits in 64 bits, none on overflow. -/
def checked_add64 (a b : Nat) : Option Nat :=
  if a + b < U64_MOD then some (a + b) else none

/-- Rust u64::checked_sub: some difference when no underflow, none otherwise. -/
def checked_sub64 (a b : Nat) : Option Nat :=
  if b ≤ a then some (a - b) else none

/-- Rust u64::checked_mul: some product when it fits in 64 bits, none on overflow. -/
def checked_mul64 (a b : Nat) : Option Nat :=
  if a * b < U64_MOD then some (a * b) else none

/-- Rust u128::checked_mul: some product when it fits in 128 bits, none on overflow. -/
def checked_mul128 (a b : Nat) : Option Nat :=
  if a * b < U128_MOD then some (a * b) else none

/-- Rust u128::checked_div by a nonzero constant: always succeeds. -/
def checked_div128 (a b : Nat) : Option Nat :=
  if b = 0 then none else some (a / b)

/-- View of an Except value as a sum, to derive decidable equality. -/
def Except.toSum {ε α : Type} : Except ε α → ε ⊕ α
  | .error e => .inl e
  | .ok a => .inr a

instance {ε α : Type} [DecidableEq ε] [DecidableEq α] : DecidableEq (Except ε α) :=
  fun a b =>
    decidable_of_iff (a.toSum = b.toSum)
      (by cases a <;> cases b <;> simp [Except.toSum])

/-- Error codes of the staking program (error_code enum StakingError). -/
inductive StakingError where
  | Unauthorized
  | InvalidOwner
  | InvalidMint
  | InvalidVault
  | InvalidMintAuthority
  | AmountTooSmall
  | InsufficientStakedAmount
  | NoRewardsToClaim
  | InsufficientRewardPool
  | PenaltyTooHigh
  | ReferralRateTooHigh
deriving DecidableEq, Repr

/-- Per-participant account state (struct UserInfo of the staking program).
Pubkeys are abstracted as Nat identities. -/
structure UserInfo where
  owner : Nat
  staked_amount : Nat
  rewards : Nat
  last_stake_time : Int
  last_claim_time : Int
  referrer : Option Nat
  referral_count : Nat
  total_referral_rewards : Nat
deriving DecidableEq, Repr

/-- Global pool state (struct GlobalState of the staking program).
Pubkeys are abstracted as Nat identities; the PDA bump is omitted. -/
structure GlobalState where
  authority : Nat
  token_mint : Nat
  vault : Nat
  reward_rate : Nat
  unlock_duration : Int
  early_unstake_penalty : Nat
  min_stake_amount : Nat
  referral_reward_rate : Nat
  total_staked : Nat
  stakers_count : Nat
  reward_pool : Nat
  last_update_time : Int
deriving DecidableEq, Repr

/-- In fn calculate_reward of lib-complete.rs:
daily_reward and reward are computed with u128 checked arithmetic whose
overflow falls back to 0 (unwrap_or(0)), and the result is narrowed to
u64 by the cast `reward as u64`, i.e. reduced mod 2^64. -/
def calculate_reward (amount time_passed daily_rate : Nat) : Nat :=
  let seconds_in_day : Nat := 86400
  let daily_reward :=
    ((checked_mul128 amount daily_rate).getD 0 / 10000)
  let reward :=
    ((checked_mul128 daily_reward time_passed).getD 0 / seconds_in_day)
  reward % U64_MOD

/-- In fn calculate_referral_reward of lib-complete.rs: u128 checked
multiply with unwrap_or(0) fallback, division by 10000, narrowed to u64. -/
def calculate_referral_reward (amount referral_rate : Nat) : Nat :=
  ((checked_mul128 amount referral_rate).getD 0 / 10000) % U64_MOD

/-- Modelled from the repeated inline accrual block of lib-complete.rs
(the identical code appears in stake, unstake, claim_rewards,
compound_rewards and get_user_info): if staked_amount > 0 and
current_time > last_stake_time, the elapsed i64 difference is cast to u64
and the computed reward is added to rewards with checked_add whose
overflow falls back to the prior value. The block does not modify
last_stake_time; each instruction resets that anchor separately. The spec
names this block settle_accrual. -/
def settle_accrual (gs : GlobalState) (u : UserInfo) (now : Int) : UserInfo :=
  if 0 < u.staked_amount ∧ u.last_stake_time < now then
    let time_passed := (now - u.last_stake_time).toNat
    let reward := calculate_reward u.staked_amount time_passed gs.reward_rate
    { u with rewards := (checked_add64 u.rewards reward).getD u.rewards }
  else u

/-- In fn initialize of lib-complete.rs: writes every configuration field
from the arguments without validation and zeroes the aggregates. -/
def init_global_state (authority token_mint vault : Nat) (reward_rate : Nat)
    (unlock_duration : Int) (early_unstake_penalty min_stake_amount
    referral_reward_rate : Nat) (now : Int) : GlobalState :=
  { authority := authority
    token_mint := token_mint
    vault := vault
    reward_rate := reward_rate
    unlock_duration := unlock_duration
    early_unstake_penalty := early_unstake_penalty
    min_stake_amount := min_stake_amount
    referral_reward_rate := referral_reward_rate
    total_staked := 0
    stakers_count := 0
    reward_pool := 0
    last_update_time := now }

/-- In fn register_user of lib-complete.rs: all numeric fields zero,
referrer stored from the caller-supplied argument. -/
def register_user (owner : Nat) (referrer : Option Nat) : UserInfo :=
  { owner := owner
    staked_amount := 0
    rewards := 0
    last_stake_time := 0
    last_claim_time := 0
    referrer := referrer
    referral_count := 0
    total_referral_rewards := 0 }

/-- In fn stake of lib-complete.rs: require amount >= min_stake_amount,
settle pending accrual, then add amount to staked_amount and total_staked
(each with checked_add falling back to the prior value), bump
stakers_count for a first-time staker and reset the stake-time anchor.
The SPL transfer of amount into the vault is external. -/
def stake (gs : GlobalState) (u : UserInfo) (amount : Nat) (now : Int) :
    Except StakingError (GlobalState × UserInfo) :=
  if amount < gs.min_stake_amount then .error .AmountTooSmall else
  let u := settle_accrual gs u now
  let is_new_staker := u.staked_amount = 0
  let u' := { u with
    staked_amount := (checked_add64 u.staked_amount amount).getD u.staked_amount
    last_stake_time := now }
  let gs' := { gs with
    total_staked := (checked_add64 gs.total_staked amount).getD gs.total_staked
    stakers_count :=
      if is_new_staker then (checked_add64 gs.stakers_count 1).getD gs.stakers_count
      else gs.stakers_count
    last_update_time := now }
  .ok (gs', u')

/-- In fn unstake of lib-complete.rs: settle accrual, require
amount <= staked_amount, compute the early-unstake penalty via u128
checked arithmetic narrowed to u64 when the unlock duration is not yet
met, derive withdraw_amount = amount - penalty (checked_sub with 0
fallback), subtract amount from staked_amount and total_staked, adjust
stakers_count, and recycle the penalty into reward_pool. The returned
pair of extra values is (withdraw_amount, penalty): withdraw_amount is
what the vault transfers back to the user. -/
def unstake (gs : GlobalState) (u : UserInfo) (amount : Nat) (now : Int) :
    Except StakingError (GlobalState × UserInfo × Nat × Nat) :=
  let u := settle_accrual gs u now
  if u.staked_amount < amount then .error .InsufficientStakedAmount else
  let time_staked : Int := now - u.last_stake_time
  let penalty : Nat :=
    if time_staked < gs.unlock_duration then
      (((checked_mul128 amount gs.early_unstake_penalty).getD 0) / 10000) % U64_MOD
    else 0
  let withdraw_amount := (checked_sub64 amount penalty).getD 0
  let u' := { u with
    staked_amount := (checked_sub64 u.staked_amount amount).getD 0
    last_stake_time := now }
  let gs' := { gs with
    total_staked := (checked_sub64 gs.total_staked amount).getD 0
    stakers_count :=
      if u'.staked_amount = 0 then (checked_sub64 gs.stakers_count 1).getD 0
      else gs.stakers_count
    last_update_time := now
    reward_pool := (checked_add64 gs.reward_pool penalty).getD gs.reward_pool }
  .ok (gs', u', withdraw_amount, penalty)

/-- In fn claim_rewards of lib-complete.rs: settle accrual, require a
positive settled reward and a sufficient reward_pool, zero the rewards,
reset both time anchors to now, and subtract the claimed amount from
reward_pool. The returned extra Nat is the amount the vault transfers to
the user. -/
def claim_rewards (gs : GlobalState) (u : UserInfo) (now : Int) :
    Except StakingError (GlobalState × UserInfo × Nat) :=
  let u := settle_accrual gs u now
  let rewards_to_claim := u.rewards
  if rewards_to_claim = 0 then .error .NoRewardsToClaim else
  if gs.reward_pool < rewards_to_claim then .error .InsufficientRewardPool else
  let u' := { u with
    rewards := 0
    last_claim_time := now
    last_stake_time := now }
  let gs' := { gs with
    reward_pool := (checked_sub64 gs.reward_pool rewards_to_claim).getD 0
    last_update_time := now }
  .ok (gs', u', rewards_to_claim)

/-- In fn compound_rewards of lib-complete.rs: settle accrual, require a
positive settled reward, move it into staked_amount (checked_add with
prior-value fallback), zero the rewards, reset the stake-time anchor and
add the same amount to total_staked (checked_add with prior-value
fallback). No external transfer occurs. -/
def compound_rewards (gs : GlobalState) (u : UserInfo) (now : Int) :
    Except StakingError (GlobalState × UserInfo) :=
  let u := settle_accrual gs u now
  let rewards_to_compound := u.rewards
  if rewards_to_compound = 0 then .error .NoRewardsToClaim else
  let u' := { u with
    staked_amount := (checked_add64 u.staked_amount rewards_to_compound).getD u.staked_amount
    rewards := 0
    last_stake_time := now }
  let gs' := { gs with
    total_staked := (checked_add64 gs.total_staked rewards_to_compound).getD gs.total_staked
    last_update_time := now }
  .ok (gs', u')

/-- In fn update_referrer_rewards of lib-complete.rs: computes the
referral reward and adds it to the referrer's total_referral_rewards and
rewards, and bumps referral_count — every addition is checked_add with an
unwrap_or fallback that silently retains the prior value, so the
instruction never fails. -/
def update_referrer_rewards (gs : GlobalState) (referrer_info : UserInfo)
    (staking_amount : Nat) : Except StakingError UserInfo :=
  let referral_reward := calculate_referral_reward staking_amount gs.referral_reward_rate
  .ok { referrer_info with
    total_referral_rewards :=
      (checked_add64 referrer_info.total_referral_rewards referral_reward).getD
        referrer_info.total_referral_rewards
    rewards :=
      (checked_add64 referrer_info.rewards referral_reward).getD referrer_info.rewards
    referral_count :=
      (checked_add64 referrer_info.referral_count 1).getD referrer_info.referral_count }

/-- In fn add_to_reward_pool of lib-complete.rs: adds the deposited
amount to reward_pool (checked_add with prior-value fallback). -/
def add_to_reward_pool (gs : GlobalState) (amount : Nat) (now : Int) : GlobalState :=
  { gs with
    reward_pool := (checked_add64 gs.reward_pool amount).getD gs.reward_pool
    last_update_time := now }

/-- Helper for fn update_parameters: the optional reward_rate field
update, applied unconditionally when present. -/
def set_reward_rate (gs : GlobalState) : Option Nat → GlobalState
  | some rate => { gs with reward_rate := rate }
  | none => gs

/-- Helper for fn update_parameters: the optional unlock_duration field
update, applied unconditionally when present. -/
def set_unlock_duration (gs : GlobalState) : Option Int → GlobalState
  | some duration => { gs with unlock_duration := duration }
  | none => gs

/-- Helper for fn update_parameters: the optional early_unstake_penalty
field update, guarded by require penalty <= 5000 (PenaltyTooHigh). -/
def set_early_unstake_penalty (gs : GlobalState) :
    Option Nat → Except StakingError GlobalState
  | some penalty =>
      if penalty ≤ 5000 then .ok { gs with early_unstake_penalty := penalty }
      else .error .PenaltyTooHigh
  | none => .ok gs

/-- Helper for fn update_parameters: the optional min_stake_amount field
update, applied unconditionally when present. -/
def set_min_stake_amount (gs : GlobalState) : Option Nat → GlobalState
  | some min_amount => { gs with min_stake_amount := min_amount }
  | none => gs

/-- Helper for fn update_parameters: the optional referral_reward_rate
field update, guarded by require rate <= 2000 (ReferralRateTooHigh). -/
def set_referral_reward_rate (gs : GlobalState) :
    Option Nat → Except StakingError GlobalState
  | some rate =>
      if rate ≤ 2000 then .ok { gs with referral_reward_rate := rate }
      else .error .ReferralRateTooHigh
  | none => .ok gs

/-- In fn update_parameters of lib-complete.rs: applies the supplied
subset of the five tunables in source order; the penalty check (max
5000) runs before the referral-rate check (max 2000); a failed require
aborts the whole instruction (Anchor rolls back every staged write). -/
def update_parameters (gs : GlobalState) (reward_rate : Option Nat)
    (unlock_duration : Option Int) (early_unstake_penalty : Option Nat)
    (min_stake_amount : Option Nat) (referral_reward_rate : Option Nat)
    (now : Int) : Except StakingError GlobalState :=
  let gs := set_reward_rate gs reward_rate
  let gs := set_unlock_duration gs unlock_duration
  match set_early_unstake_penalty gs early_unstake_penalty with
  | .error e => .error e
  | .ok gs =>
    let gs := set_min_stake_amount gs min_stake_amount
    match set_referral_reward_rate gs referral_reward_rate with
    | .error e => .error e
    | .ok gs => .ok { gs with last_update_time := now }

/-- Error codes of the referral tracker program (error_code enum
ErrorCode in referral-tracker lib.rs). -/
inductive TrackerError where
  | ZeroAmount
  | MathOverflow
  | EmptyReferralCode
  | ReferralCodeTooLong
  | ReferralCodeAlreadyExists
  | InvalidReferralCode
  | SelfReferral
  | ReferrerMismatch
  | InsufficientRewards
  | Unauthorized
deriving DecidableEq, Repr

/-- Per-referrer state of the tracker program (struct UserInfo in
referral-tracker lib.rs; named apart from the staking UserInfo). -/
structure TrackerUserInfo where
  authority : Nat
  referral_code : String
  total_referred : Nat
  total_rewards_earned : Nat
  claimable_rewards : Nat
  referred_count : Nat
deriving DecidableEq, Repr

/-- Referred-buyer state (struct ReferredUser in referral-tracker lib.rs). -/
structure ReferredUser where
  authority : Nat
  referrer : Option Nat
deriving DecidableEq, Repr

/-- Global state of the tracker program (struct ReferralProgram in
referral-tracker lib.rs); key fields abstracted as Nat identities. -/
structure ReferralProgram where
  authority : Nat
  token_mint : Nat
  staking_vault : Nat
  marketing_wallet : Nat
  total_referred_amount : Nat
  total_referral_rewards : Nat
  referrer_count : Nat
deriving DecidableEq, Repr

/-- Ledger row written by record_referral (struct ReferralEntry in
referral-tracker lib.rs). -/
structure ReferralEntry where
  referrer : Nat
  referred : Nat
  amount : Nat
  reward : Nat
  timestamp : Int
deriving DecidableEq, Repr

/-- Rust Option::ok_or lifted to Except, as used by the tracker's
checked arithmetic chains. -/
def ok_or {α : Type} (o : Option α) (e : TrackerError) : Except TrackerError α :=
  match o with
  | some a => .ok a
  | none => .error e

/-- REFERRER_FEE_PERCENT constant of referral-tracker lib.rs. -/
def REFERRER_FEE_PERCENT : Nat := 5

/-- In fn record_referral of referral-tracker lib.rs: validates the
amount and code, binds or checks the referrer on the referred-user
account, then credits the referrer and the program totals with u64
checked arithmetic where every overflow raises MathOverflow, and writes
a ReferralEntry ledger row. -/
def record_referral (prog : ReferralProgram) (referred_user : ReferredUser)
    (referrer_info : TrackerUserInfo) (referred_user_wallet : Nat)
    (amount : Nat) (referral_code : String) (now : Int) :
    Except TrackerError
      (ReferralProgram × ReferredUser × TrackerUserInfo × ReferralEntry) := do
  if amount = 0 then throw .ZeroAmount
  if referral_code.isEmpty then throw .EmptyReferralCode
  let referred_user ←
    match referred_user.referrer with
    | none =>
        if referrer_info.authority = referred_user_wallet then
          throw TrackerError.SelfReferral
        else
          pure { referred_user with
            referrer := some referrer_info.authority
            authority := referred_user_wallet }
    | some r =>
        if r = referrer_info.authority then pure referred_user
        else throw TrackerError.ReferrerMismatch
  let m ← ok_or (checked_mul64 amount REFERRER_FEE_PERCENT) .MathOverflow
  let referrer_reward := m / 100
  let tr ← ok_or (checked_add64 referrer_info.total_referred amount) .MathOverflow
  let te ← ok_or (checked_add64 referrer_info.total_rewards_earned referrer_reward)
    .MathOverflow
  let rc ← ok_or (checked_add64 referrer_info.referred_count 1) .MathOverflow
  let referrer_info := { referrer_info with
    total_referred := tr
    total_rewards_earned := te
    referred_count := rc }
  let ta ← ok_or (checked_add64 prog.total_referred_amount amount) .MathOverflow
  let trr ← ok_or (checked_add64 prog.total_referral_rewards referrer_reward)
    .MathOverflow
  let prog := { prog with total_referred_amount := ta, total_referral_rewards := trr }
  let referral_entry : ReferralEntry :=
    { referrer := referrer_info.authority
      referred := referred_user_wallet
      amount := amount
      reward := referrer_reward
      timestamp := now }
  pure (prog, referred_user, referrer_info, referral_entry)

/-- Whole-system state of the staking program: the pool plus the list of
registered user accounts (each account is an independent PDA in the
source; the list order is registration order). -/
structure Sys where
  pool : GlobalState
  accounts : List UserInfo
deriving DecidableEq, Repr

/-- Sum of staked_amount over all registered accounts, as an unbounded
natural number. -/
def sumStaked (l : List UserInfo) : Nat :=
  (l.map UserInfo.staked_amount).sum

/-- Freshly initialized system: the pool produced by fn initialize and
no registered accounts. -/
def freshSys (authority token_mint vault : Nat) (reward_rate : Nat)
    (unlock_duration : Int) (early_unstake_penalty min_stake_amount
    referral_reward_rate : Nat) (now : Int) : Sys :=
  { pool := init_global_state authority token_mint vault reward_rate
      unlock_duration early_unstake_penalty min_stake_amount
      referral_reward_rate now
    accounts := [] }

/-- One successful public instruction of the staking program, as the
source executes it (Anchor rolls back failed instructions, so only
successful executions change state). -/
inductive Step : Sys → Sys → Prop where
  | register (s : Sys) (owner : Nat) (referrer : Option Nat) :
      Step s ⟨s.pool, s.accounts ++ [register_user owner referrer]⟩
  | stake (s : Sys) (i : Nat) (h : i < s.accounts.length) (amount : Nat)
      (now : Int) (gs' : GlobalState) (u' : UserInfo)
      (hok : stake s.pool (s.accounts.get ⟨i, h⟩) amount now = .ok (gs', u')) :
      Step s ⟨gs', s.accounts.set i u'⟩
  | unstake (s : Sys) (i : Nat) (h : i < s.accounts.length) (amount : Nat)
      (now : Int) (gs' : GlobalState) (u' : UserInfo) (w p : Nat)
      (hok : unstake s.pool (s.accounts.get ⟨i, h⟩) amount now = .ok (gs', u', w, p)) :
      Step s ⟨gs', s.accounts.set i u'⟩
  | claim (s : Sys) (i : Nat) (h : i < s.accounts.length) (now : Int)
      (gs' : GlobalState) (u' : UserInfo) (amt : Nat)
      (hok : claim_rewards s.pool (s.accounts.get ⟨i, h⟩) now = .ok (gs', u', amt)) :
      Step s ⟨gs', s.accounts.set i u'⟩
  | compound (s : Sys) (i : Nat) (h : i < s.accounts.length) (now : Int)
      (gs' : GlobalState) (u' : UserInfo)
      (hok : compound_rewards s.pool (s.accounts.get ⟨i, h⟩) now = .ok (gs', u')) :
      Step s ⟨gs', s.accounts.set i u'⟩
  | referrer_rewards (s : Sys) (i : Nat) (h : i < s.accounts.length)
      (staking_amount : Nat) (u' : UserInfo)
      (hok : update_referrer_rewards s.pool (s.accounts.get ⟨i, h⟩) staking_amount
        = .ok u') :
      Step s ⟨s.pool, s.accounts.set i u'⟩
  | add_pool (s : Sys) (amount : Nat) (now : Int) :
      Step s ⟨add_to_reward_pool s.pool amount now, s.accounts⟩
  | params (s : Sys) (rr : Option Nat) (ud : Option Int) (pu ms rfr : Option Nat)
      (now : Int) (gs' : GlobalState)
      (hok : update_parameters s.pool rr ud pu ms rfr now = .ok gs') :
      Step s ⟨gs', s.accounts⟩

/-- States reachable from s0 by finitely many successful instructions. -/
inductive Reachable (s0 : Sys) : Sys → Prop where
  | refl : Reachable s0 s0
  | tail {s t : Sys} : Reachable s0 s → Step s t → Reachable s0 t

/-- Restriction of Step to the operation list of the sum invariant claim
(register plus the four balance-mutating instructions), with the extra
side condition that additions into staked_amount and total_staked stay
below 2^64 — i.e. no checked_add on those fields takes its silent
prior-value fallback. -/
inductive BoundedStep : Sys → Sys → Prop where
  | register (s : Sys) (owner : Nat) (referrer : Option Nat) :
      BoundedStep s ⟨s.pool, s.accounts ++ [register_user owner referrer]⟩
  | stake (s : Sys) (i : Nat) (h : i < s.accounts.length) (amount : Nat)
      (now : Int) (gs' : GlobalState) (u' : UserInfo)
      (hb : sumStaked s.accounts + amount < U64_MOD)
      (hok : stake s.pool (s.accounts.get ⟨i, h⟩) amount now = .ok (gs', u')) :
      BoundedStep s ⟨gs', s.accounts.set i u'⟩
  | unstake (s : Sys) (i : Nat) (h : i < s.accounts.length) (amount : Nat)
      (now : Int) (gs' : GlobalState) (u' : UserInfo) (w p : Nat)
      (hok : unstake s.pool (s.accounts.get ⟨i, h⟩) amount now = .ok (gs', u', w, p)) :
      BoundedStep s ⟨gs', s.accounts.set i u'⟩
  | claim (s : Sys) (i : Nat) (h : i < s.accounts.length) (now : Int)
      (gs' : GlobalState) (u' : UserInfo) (amt : Nat)
      (hok : claim_rewards s.pool (s.accounts.get ⟨i, h⟩) now = .ok (gs', u', amt)) :
      BoundedStep s ⟨gs', s.accounts.set i u'⟩
  | compound (s : Sys) (i : Nat) (h : i < s.accounts.length) (now : Int)
      (gs' : GlobalState) (u' : UserInfo)
      (hb : sumStaked s.accounts
        + (settle_accrual s.pool (s.accounts.get ⟨i, h⟩) now).rewards < U64_MOD)
      (hok : compound_rewards s.pool (s.accounts.get ⟨i, h⟩) now = .ok (gs', u')) :
      BoundedStep s ⟨gs', s.accounts.set i u'⟩

/-- States reachable from s0 by finitely many overflow-free instructions. -/
inductive BoundedReachable (s0 : Sys) : Sys → Prop where
  | refl : BoundedReachable s0 s0
  | tail {s t : Sys} : BoundedReachable s0 s → BoundedStep s t → BoundedReachable s0 t

/-! Helper lemmas about account sums and the settle block. -/

theorem sumStaked_append (l : List UserInfo) (u : UserInfo) :
    sumStaked (l ++ [u]) = sumStaked l + u.staked_amount := by
  simp [sumStaked]

theorem sumStaked_set (l : List UserInfo) (i : Nat) (h : i < l.length)
    (u : UserInfo) :
    sumStaked (l.set i u) + (l.get ⟨i, h⟩).staked_amount
      = sumStaked l + u.staked_amount := by
  induction l generalizing i with
  | nil => simp at h
  | cons a l ih =>
      cases i with
      | zero => simp [sumStaked]; ring
      | succ j =>
          have hj : j < l.length := by simpa using h
          have := ih j hj
          simp only [List.set, sumStaked, List.map, List.sum_cons, List.get] at *
          omega

theorem staked_le_sumStaked (l : List UserInfo) (i : Nat) (h : i < l.length) :
    (l.get ⟨i, h⟩).staked_amount ≤ sumStaked l := by
  induction l generalizing i with
  | nil => simp at h
  | cons a l ih =>
      cases i with
      | zero => simp [sumStaked]
      | succ j =>
          have hj : j < l.length := by simpa using h
          have := ih j hj
          simp only [sumStaked, List.map, List.sum_cons, List.get] at *
          omega

theorem settle_accrual_staked (gs : GlobalState) (u : UserInfo) (now : Int) :
    (settle_accrual gs u now).staked_amount = u.staked_amount := by
  unfold settle_accrual; split <;> rfl

theorem settle_accrual_last_stake_time (gs : GlobalState) (u : UserInfo) (now : Int) :
    (settle_accrual gs u now).last_stake_time = u.last_stake_time := by
  unfold settle_accrual; split <;> rfl

theorem u64_mul_lt_u128 {p r : Nat} (hp : p < U64_MOD) (hr : r < U64_MOD) :
    p * r < U128_MOD := by
  have h : p * r < U64_MOD * U64_MOD :=
    Nat.mul_lt_mul_of_lt_of_le hp (Nat.le_of_lt hr) (by norm_num [U64_MOD])
  simpa [U64_MOD, U128_MOD, pow_succ, pow_mul] using h

theorem calculate_reward_eq_of_lt (p t r : Nat) (hpr : p * r < U128_MOD)
    (hov : p * r / 10000 * t < U128_MOD)
    (hres : p * r / 10000 * t / 86400 < U64_MOD) :
    calculate_reward p t r = p * r / 10000 * t / 86400 := by
  simp only [calculate_reward, checked_mul128, if_pos hpr, Option.getD_some,
    if_pos hov]
  exact Nat.mod_eq_of_lt hres

theorem calculate_reward_eq_zero_of_ovf (p t r : Nat) (hpr : p * r < U128_MOD)
    (hov : U128_MOD ≤ p * r / 10000 * t) :
    calculate_reward p t r = 0 := by
  simp only [calculate_reward, checked_mul128, if_pos hpr, Option.getD_some,
    if_neg (Nat.not_lt.mpr hov), Option.getD_none, Nat.zero_div, Nat.zero_mod]

/-! Claim C2: exact value of the accrual calculator. -/

/-- C2 counterexample: at principal 10000, rate u64::MAX and elapsed two
days, the floor formula gives 2^65 - 2 but calculate_reward narrows it to
2^64 - 2 by the final u64 cast — the result is neither the floor value
nor 0, and no intermediate u128 overflow occurred. -/
theorem C2_counterexample :
    calculate_reward 10000 172800 (2 ^ 64 - 1) = 2 ^ 64 - 2 ∧
    10000 * (2 ^ 64 - 1) / 10000 * 172800 / 86400 = 2 ^ 65 - 2 ∧
    (2 ^ 64 - 2 : Nat) ≠ 2 ^ 65 - 2 ∧ (2 ^ 64 - 2 : Nat) ≠ 0 := by
  refine ⟨by decide, by decide, by decide, by decide⟩

/-- C2 (amended): for u64 inputs, calculate_reward equals
floor(floor(p*r/10000)*t/86400) whenever that value fits in u64 and the
intermediate 128-bit product does not overflow; it is 0 on u128 overflow
of that product, and 0 whenever t = 0 or p = 0. (The function is total,
so it never fails; when the mathematical value is at least 2^64 without
u128 overflow, the final cast truncates it mod 2^64 instead.) -/
theorem C2_amended_reward_formula (p t r : Nat) (hp : p < U64_MOD) (hr : r < U64_MOD) :
    (p * r / 10000 * t < U128_MOD → p * r / 10000 * t / 86400 < U64_MOD →
        calculate_reward p t r = p * r / 10000 * t / 86400) ∧
    (U128_MOD ≤ p * r / 10000 * t → calculate_reward p t r = 0) ∧
    (t = 0 → calculate_reward p t r = 0) ∧
    (p = 0 → calculate_reward p t r = 0) := by
  have hpr : p * r < U128_MOD := u64_mul_lt_u128 hp hr
  refine ⟨fun hov hres => calculate_reward_eq_of_lt p t r hpr hov hres,
    fun hov => calculate_reward_eq_zero_of_ovf p t r hpr hov, fun ht => ?_, fun hp0 => ?_⟩
  · subst ht
    have h0 : p * r / 10000 * 0 < U128_MOD := by simp [U128_MOD]
    have := calculate_reward_eq_of_lt p 0 r hpr h0 (by simp [U64_MOD])
    simpa using this
  · subst hp0
    have h0 : 0 * r / 10000 * t < U128_MOD := by simp [U128_MOD]
    have := calculate_reward_eq_of_lt 0 t r hpr h0 (by simp [U64_MOD])
    simpa using this

/-- C2 witness: Scenario A of the spec — principal 1,000,000, rate 100
bps, elapsed 43,200 s yields exactly 5000, via the amended theorem. -/
theorem C2_witness :
    calculate_reward 1000000 43200 100 = 1000000 * 100 / 10000 * 43200 / 86400 ∧
    1000000 * 100 / 10000 * 43200 / 86400 = 5000 :=
  ⟨(C2_amended_reward_formula 1000000 43200 100 (by decide) (by decide)).1
      (by decide) (by decide),
    by decide⟩

/-! Claim C5: monotonicity of accrual in elapsed time. -/

/-- C5 counterexample: with principal u64::MAX and rate 10^8 bps, one day
accrues a positive amount but 2*10^15 seconds accrues 0, because the
128-bit product overflows and calculate_reward falls back to 0 — so
accrual is not monotone in elapsed time. -/
theorem C5_counterexample :
    (86400 : Nat) ≤ 2000000000000000 ∧
    ¬ calculate_reward (2 ^ 64 - 1) 86400 (10 ^ 8)
        ≤ calculate_reward (2 ^ 64 - 1) 2000000000000000 (10 ^ 8) := by
  refine ⟨by decide, by decide⟩

/-- C5 (amended): accrual is monotone in elapsed time provided the
128-bit intermediate product at the larger time does not overflow and
the larger result fits in u64 (so neither the overflow-to-0 fallback nor
the truncating u64 cast fires). -/
theorem C5_amended_monotone (p r t1 t2 : Nat) (hp : p < U64_MOD) (hr : r < U64_MOD)
    (h12 : t1 ≤ t2) (hov : p * r / 10000 * t2 < U128_MOD)
    (hres : p * r / 10000 * t2 / 86400 < U64_MOD) :
    calculate_reward p t1 r ≤ calculate_reward p t2 r := by
  have hpr : p * r < U128_MOD := u64_mul_lt_u128 hp hr
  have hmul : p * r / 10000 * t1 ≤ p * r / 10000 * t2 :=
    Nat.mul_le_mul_left _ h12
  have hdiv : p * r / 10000 * t1 / 86400 ≤ p * r / 10000 * t2 / 86400 :=
    Nat.div_le_div_right hmul
  rw [calculate_reward_eq_of_lt p t1 r hpr (lt_of_le_of_lt hmul hov)
      (lt_of_le_of_lt hdiv hres),
    calculate_reward_eq_of_lt p t2 r hpr hov hres]
  exact hdiv

/-- C5 witness: monotonicity at principal 1,000,000, rate 100 bps,
between half a day and a full day, via the amended theorem. -/
theorem C5_witness :
    calculate_reward 1000000 43200 100 ≤ calculate_reward 1000000 86400 100 :=
  C5_amended_monotone 1000000 100 43200 86400 (by decide) (by decide)
    (by decide) (by decide) (by decide)

/-! Claim C10: a principal too small to earn one basis-point unit never
accrues anything. -/

/-- C10: whenever principal * rate < 10000, the daily reward floors to 0
and calculate_reward returns 0 for every elapsed time. -/
theorem C10_small_stake_no_reward (p r t : Nat) (h : p * r < 10000) :
    calculate_reward p t r = 0 := by
  have hpr : p * r < U128_MOD := lt_trans h (by norm_num [U128_MOD])
  have hd : p * r / 10000 = 0 := Nat.div_eq_of_lt h
  simp only [calculate_reward, checked_mul128, if_pos hpr, Option.getD_some, hd,
    Nat.zero_mul, Nat.zero_div, Nat.zero_mod]
  norm_num [U128_MOD]

/-- C10 witness: principal 3 at 100 bps held for 10^9 seconds accrues 0. -/
theorem C10_witness :
    3 * 100 < 10000 ∧ calculate_reward 3 1000000000 100 = 0 :=
  ⟨by decide, C10_small_stake_no_reward 3 100 1000000000 (by decide)⟩

/-! Claim C3: idempotence of settlement. -/

/-- Concrete pool for the settlement idempotence counterexample: daily
rate 100 bps. -/
def c3Pool : GlobalState :=
  { authority := 1, token_mint := 2, vault := 3, reward_rate := 100,
    unlock_duration := 0, early_unstake_penalty := 0, min_stake_amount := 0,
    referral_reward_rate := 0, total_staked := 10000, stakers_count := 1,
    reward_pool := 0, last_update_time := 0 }

/-- Concrete account for the settlement idempotence counterexample:
10000 staked since time 0, no pending reward. -/
def c3User : UserInfo :=
  { owner := 7, staked_amount := 10000, rewards := 0, last_stake_time := 0,
    last_claim_time := 0, referrer := none, referral_count := 0,
    total_referral_rewards := 0 }

/-- C3 counterexample: the settle block does not advance last_stake_time,
so a second settle_accrual at the same timestamp adds the same accrual
again — one day at 100 bps on 10000 staked settles to 100 pending after
one call but 200 after two, so the second call does mutate the account. -/
theorem C3_counterexample :
    settle_accrual c3Pool (settle_accrual c3Pool c3User 86400) 86400
        ≠ settle_accrual c3Pool c3User 86400 ∧
    (settle_accrual c3Pool c3User 86400).rewards = 100 ∧
    (settle_accrual c3Pool (settle_accrual c3Pool c3User 86400) 86400).rewards = 200 := by
  refine ⟨by decide, by decide, by decide⟩

/-- C3 (amended): settlement is idempotent only across the accrual-anchor
reset that every public operation performs after settling: once
last_stake_time is set to now (as stake, unstake, claim_rewards and
compound_rewards all do), a further settle_accrual at the same now is the
identity. Without that reset the block re-adds the same accrual on every
call. -/
theorem C3_amended_idempotent_after_anchor_reset (gs : GlobalState)
    (u : UserInfo) (now : Int) :
    settle_accrual gs { settle_accrual gs u now with last_stake_time := now } now
      = { settle_accrual gs u now with last_stake_time := now } := by
  set v := settle_accrual gs u now
  show settle_accrual gs { v with last_stake_time := now } now
      = { v with last_stake_time := now }
  simp [settle_accrual]

/-! Claim C4: claim_rewards zeroes the pending reward, resets both time
anchors, and blocks re-accrual at the same timestamp. -/

/-- C4: a successful claim_rewards leaves pending rewards 0 and both time
anchors at now, and a subsequent settle_accrual at the same now is the
identity on the resulting account. -/
theorem C4_claim_no_double_accrual (gs : GlobalState) (u : UserInfo) (now : Int)
    (gs' : GlobalState) (u' : UserInfo) (amt : Nat)
    (h : claim_rewards gs u now = .ok (gs', u', amt)) :
    u'.rewards = 0 ∧ u'.last_claim_time = now ∧ u'.last_stake_time = now ∧
      settle_accrual gs' u' now = u' := by
  simp only [claim_rewards] at h
  split at h
  · exact absurd h (by simp)
  · split at h
    · exact absurd h (by simp)
    · simp only [Except.ok.injEq, Prod.mk.injEq] at h
      obtain ⟨hgs, hu, hamt⟩ := h
      subst hu
      refine ⟨rfl, rfl, rfl, ?_⟩
      simp [settle_accrual]

/-- Pool for the C4 witness: 100 tokens in the reward pool. -/
def c4Pool : GlobalState :=
  { authority := 1, token_mint := 2, vault := 3, reward_rate := 100,
    unlock_duration := 0, early_unstake_penalty := 0, min_stake_amount := 0,
    referral_reward_rate := 0, total_staked := 0, stakers_count := 0,
    reward_pool := 100, last_update_time := 0 }

/-- Account for the C4 witness: nothing staked, 50 pending reward. -/
def c4User : UserInfo :=
  { owner := 7, staked_amount := 0, rewards := 50, last_stake_time := 0,
    last_claim_time := 0, referrer := none, referral_count := 0,
    total_referral_rewards := 0 }

/-- Pool after the C4 witness claim. -/
def c4PoolAfter : GlobalState :=
  { authority := 1, token_mint := 2, vault := 3, reward_rate := 100,
    unlock_duration := 0, early_unstake_penalty := 0, min_stake_amount := 0,
    referral_reward_rate := 0, total_staked := 0, stakers_count := 0,
    reward_pool := 50, last_update_time := 5 }

/-- Account after the C4 witness claim. -/
def c4UserAfter : UserInfo :=
  { owner := 7, staked_amount := 0, rewards := 0, last_stake_time := 5,
    last_claim_time := 5, referrer := none, referral_count := 0,
    total_referral_rewards := 0 }

/-- C4 witness: a concrete successful claim of 50 at time 5, via the
main theorem. -/
theorem C4_witness :
    c4UserAfter.rewards = 0 ∧ c4UserAfter.last_claim_time = 5 ∧
      c4UserAfter.last_stake_time = 5 ∧
      settle_accrual c4PoolAfter c4UserAfter 5 = c4UserAfter :=
  C4_claim_no_double_accrual c4Pool c4User 5 c4PoolAfter c4UserAfter 50 (by decide)

/-! Claim C6: penalty and withdraw amount on unstake. -/

/-- Pool for the C6 counterexample: fn initialize accepts an
early_unstake_penalty of 20000 bps (200%) without validation. -/
def c6Pool : GlobalState :=
  { authority := 1, token_mint := 2, vault := 3, reward_rate := 0,
    unlock_duration := 100, early_unstake_penalty := 20000, min_stake_amount := 0,
    referral_reward_rate := 0, total_staked := 1000, stakers_count := 1,
    reward_pool := 0, last_update_time := 0 }

/-- Account for the C6 counterexample: 1000 staked since time 0. -/
def c6User : UserInfo :=
  { owner := 7, staked_amount := 1000, rewards := 0, last_stake_time := 0,
    last_claim_time := 0, referrer := none, referral_count := 0,
    total_referral_rewards := 0 }

/-- Pool after the C6 counterexample unstake: the 2000-token penalty is
recycled into the reward pool. -/
def c6PoolAfter : GlobalState :=
  { authority := 1, token_mint := 2, vault := 3, reward_rate := 0,
    unlock_duration := 100, early_unstake_penalty := 20000, min_stake_amount := 0,
    referral_reward_rate := 0, total_staked := 0, stakers_count := 0,
    reward_pool := 2000, last_update_time := 50 }

/-- Account after the C6 counterexample unstake. -/
def c6UserAfter : UserInfo :=
  { owner := 7, staked_amount := 0, rewards := 0, last_stake_time := 50,
    last_claim_time := 0, referrer := none, referral_count := 0,
    total_referral_rewards := 0 }

/-- C6 counterexample: with a reachable penalty rate of 20000 bps (set by
fn initialize, which performs no bound check), an early unstake of 1000
computes penalty 2000 > 1000, and the user receives 0 rather than
amount - penalty (the checked_sub underflows to the 0 fallback), so the
penalty does exceed the unstaked amount. -/
theorem C6_counterexample :
    unstake c6Pool c6User 1000 50 = .ok (c6PoolAfter, c6UserAfter, 0, 2000) ∧
    ¬ (2000 : Nat) ≤ 1000 ∧ (1000 : Int) - 2000 ≠ 0 := by
  refine ⟨by decide, by decide, by decide⟩

/-- C6 (amended): for a successful unstake of a u64 amount under a
penalty rate of at most 10000 bps (in particular under the 5000-bps cap
that update_parameters enforces — fn initialize does not enforce it):
the penalty is 0 when the unlock duration has elapsed, otherwise it is
floor(amount * penalty_rate_bps / 10000); it never exceeds the amount,
and the withdrawn transfer plus the penalty is exactly the amount. -/
theorem C6_amended_penalty_bounds (gs : GlobalState) (u : UserInfo) (amount : Nat)
    (now : Int) (gs' : GlobalState) (u' : UserInfo) (w p : Nat)
    (hamt : amount < U64_MOD) (hrate : gs.early_unstake_penalty ≤ 10000)
    (h : unstake gs u amount now = .ok (gs', u', w, p)) :
    (gs.unlock_duration ≤ now - u.last_stake_time → p = 0) ∧
    (now - u.last_stake_time < gs.unlock_duration →
        p = amount * gs.early_unstake_penalty / 10000) ∧
    p ≤ amount ∧ w + p = amount := by
  have hmul : amount * gs.early_unstake_penalty < U128_MOD :=
    u64_mul_lt_u128 hamt (lt_of_le_of_lt hrate (by norm_num [U64_MOD]))
  have hple : amount * gs.early_unstake_penalty / 10000 ≤ amount := by
    have h1 : amount * gs.early_unstake_penalty ≤ amount * 10000 :=
      Nat.mul_le_mul_left _ hrate
    have h2 : amount * gs.early_unstake_penalty / 10000 ≤ amount * 10000 / 10000 :=
      Nat.div_le_div_right h1
    have h3 : amount * 10000 / 10000 = amount := by omega
    omega
  simp only [unstake, settle_accrual_last_stake_time] at h
  split at h
  · exact absurd h (by simp)
  · simp only [Except.ok.injEq, Prod.mk.injEq] at h
    obtain ⟨hgs, hu, hw, hp⟩ := h
    subst hp
    constructor
    · intro hlate
      rw [if_neg (not_lt.mpr hlate)]
    constructor
    · intro hearly
      rw [if_pos hearly]
      simp only [checked_mul128, if_pos hmul, Option.getD_some]
      exact Nat.mod_eq_of_lt (lt_of_le_of_lt hple hamt)
    · have hpval : (if now - u.last_stake_time < gs.unlock_duration then
          ((checked_mul128 amount gs.early_unstake_penalty).getD 0 / 10000) % U64_MOD
        else 0) ≤ amount := by
        split
        · simp only [checked_mul128, if_pos hmul, Option.getD_some]
          exact le_trans (Nat.mod_le _ _) hple
        · exact Nat.zero_le amount
      refine ⟨hpval, ?_⟩
      subst hw
      simp only [checked_sub64, if_pos hpval, Option.getD_some]
      omega

/-- Pool for the C6 witness: unlock 100 s, early penalty 1000 bps. -/
def c6wPool : GlobalState :=
  { authority := 1, token_mint := 2, vault := 3, reward_rate := 0,
    unlock_duration := 100, early_unstake_penalty := 1000, min_stake_amount := 0,
    referral_reward_rate := 0, total_staked := 1000, stakers_count := 1,
    reward_pool := 0, last_update_time := 0 }

/-- Account for the C6 witness: 1000 staked since time 0. -/
def c6wUser : UserInfo :=
  { owner := 7, staked_amount := 1000, rewards := 0, last_stake_time := 0,
    last_claim_time := 0, referrer := none, referral_count := 0,
    total_referral_rewards := 0 }

/-- Pool after the C6 witness unstake. -/
def c6wPoolAfter : GlobalState :=
  { authority := 1, token_mint := 2, vault := 3, reward_rate := 0,
    unlock_duration := 100, early_unstake_penalty := 1000, min_stake_amount := 0,
    referral_reward_rate := 0, total_staked := 0, stakers_count := 0,
    reward_pool := 100, last_update_time := 50 }

/-- Account after the C6 witness unstake. -/
def c6wUserAfter : UserInfo :=
  { owner := 7, staked_amount := 0, rewards := 0, last_stake_time := 50,
    last_claim_time := 0, referrer := none, referral_count := 0,
    total_referral_rewards := 0 }

/-- C6 witness: Scenario B of the spec — unstake 1000 held 50 s of 100 s
at 1000 bps gives penalty 100 and withdraw 900, via the amended theorem. -/
theorem C6_witness :
    (c6wPool.unlock_duration ≤ (50 : Int) - c6wUser.last_stake_time →
        (100 : Nat) = 0) ∧
    ((50 : Int) - c6wUser.last_stake_time < c6wPool.unlock_duration →
        (100 : Nat) = 1000 * c6wPool.early_unstake_penalty / 10000) ∧
    (100 : Nat) ≤ 1000 ∧ 900 + 100 = 1000 :=
  C6_amended_penalty_bounds c6wPool c6wUser 1000 50 c6wPoolAfter c6wUserAfter
    900 100 (by decide) (by decide) (by decide)

/-! Pool-field preservation lemmas used by the invariant claims. -/

theorem stake_pool_penalty (gs : GlobalState) (u : UserInfo) (amount : Nat)
    (now : Int) (gs' : GlobalState) (u' : UserInfo)
    (h : stake gs u amount now = .ok (gs', u')) :
    gs'.early_unstake_penalty = gs.early_unstake_penalty := by
  simp only [stake] at h
  split at h
  · exact absurd h (by simp)
  · simp only [Except.ok.injEq, Prod.mk.injEq] at h
    rw [← h.1]

theorem unstake_pool_penalty (gs : GlobalState) (u : UserInfo) (amount : Nat)
    (now : Int) (gs' : GlobalState) (u' : UserInfo) (w p : Nat)
    (h : unstake gs u amount now = .ok (gs', u', w, p)) :
    gs'.early_unstake_penalty = gs.early_unstake_penalty := by
  simp only [unstake] at h
  split at h
  · exact absurd h (by simp)
  · simp only [Except.ok.injEq, Prod.mk.injEq] at h
    rw [← h.1]

theorem claim_pool_penalty (gs : GlobalState) (u : UserInfo) (now : Int)
    (gs' : GlobalState) (u' : UserInfo) (amt : Nat)
    (h : claim_rewards gs u now = .ok (gs', u', amt)) :
    gs'.early_unstake_penalty = gs.early_unstake_penalty := by
  simp only [claim_rewards] at h
  split at h
  · exact absurd h (by simp)
  · split at h
    · exact absurd h (by simp)
    · simp only [Except.ok.injEq, Prod.mk.injEq] at h
      rw [← h.1]

theorem compound_pool_penalty (gs : GlobalState) (u : UserInfo) (now : Int)
    (gs' : GlobalState) (u' : UserInfo)
    (h : compound_rewards gs u now = .ok (gs', u')) :
    gs'.early_unstake_penalty = gs.early_unstake_penalty := by
  simp only [compound_rewards] at h
  split at h
  · exact absurd h (by simp)
  · simp only [Except.ok.injEq, Prod.mk.injEq] at h
    rw [← h.1]

theorem set_reward_rate_penalty (gs : GlobalState) (o : Option Nat) :
    (set_reward_rate gs o).early_unstake_penalty = gs.early_unstake_penalty := by
  cases o <;> rfl

theorem set_unlock_duration_penalty (gs : GlobalState) (o : Option Int) :
    (set_unlock_duration gs o).early_unstake_penalty = gs.early_unstake_penalty := by
  cases o <;> rfl

theorem set_min_stake_amount_penalty (gs : GlobalState) (o : Option Nat) :
    (set_min_stake_amount gs o).early_unstake_penalty = gs.early_unstake_penalty := by
  cases o <;> rfl

theorem set_referral_reward_rate_penalty (gs gs' : GlobalState) (o : Option Nat)
    (h : set_referral_reward_rate gs o = .ok gs') :
    gs'.early_unstake_penalty = gs.early_unstake_penalty := by
  cases o with
  | none =>
      simp only [set_referral_reward_rate, Except.ok.injEq] at h
      rw [← h]
  | some r =>
      simp only [set_referral_reward_rate] at h
      split at h
      · simp only [Except.ok.injEq] at h
        rw [← h]
      · exact absurd h (by simp)

theorem set_early_unstake_penalty_ok (gs gs' : GlobalState) (o : Option Nat)
    (h : set_early_unstake_penalty gs o = .ok gs') :
    gs'.early_unstake_penalty = gs.early_unstake_penalty ∨
      gs'.early_unstake_penalty ≤ 5000 := by
  cases o with
  | none =>
      left
      simp only [set_early_unstake_penalty, Except.ok.injEq] at h
      rw [← h]
  | some p =>
      simp only [set_early_unstake_penalty] at h
      split at h
      · right
        simp only [Except.ok.injEq] at h
        rw [← h]
        assumption
      · exact absurd h (by simp)

theorem update_parameters_penalty_le (gs gs' : GlobalState) (rr : Option Nat)
    (ud : Option Int) (pu ms rfr : Option Nat) (now : Int)
    (hgs : gs.early_unstake_penalty ≤ 5000)
    (h : update_parameters gs rr ud pu ms rfr now = .ok gs') :
    gs'.early_unstake_penalty ≤ 5000 := by
  simp only [update_parameters] at h
  cases hse : set_early_unstake_penalty (set_unlock_duration (set_reward_rate gs rr) ud) pu with
  | error e => rw [hse] at h; exact absurd h (by simp)
  | ok gsA =>
      rw [hse] at h
      dsimp only at h
      cases hsr : set_referral_reward_rate (set_min_stake_amount gsA ms) rfr with
      | error e => rw [hsr] at h; exact absurd h (by simp)
      | ok gsC =>
          rw [hsr] at h
          dsimp only at h
          simp only [Except.ok.injEq] at h
          have h1 := set_early_unstake_penalty_ok _ _ _ hse
          have h2 := set_referral_reward_rate_penalty _ _ _ hsr
          have h3 := set_min_stake_amount_penalty gsA ms
          have h4 := set_unlock_duration_penalty (set_reward_rate gs rr) ud
          have h5 := set_reward_rate_penalty gs rr
          have hfin : gs'.early_unstake_penalty = gsC.early_unstake_penalty := by
            rw [← h]
          rcases h1 with h1 | h1 <;> omega

/-! Preservation of the staked-sum invariant by overflow-free steps. -/

theorem bounded_step_staked_inv {s t : Sys} (hst : BoundedStep s t)
    (h1 : s.pool.total_staked = sumStaked s.accounts)
    (h2 : sumStaked s.accounts < U64_MOD) :
    t.pool.total_staked = sumStaked t.accounts ∧
      sumStaked t.accounts < U64_MOD := by
  cases hst with
  | register owner ref =>
      constructor
      · show s.pool.total_staked = sumStaked (s.accounts ++ [register_user owner ref])
        rw [sumStaked_append, h1]
        simp [register_user]
      · show sumStaked (s.accounts ++ [register_user owner ref]) < U64_MOD
        rw [sumStaked_append]
        simpa [register_user] using h2
  | stake i hi amount now gs' u' hb hok =>
      have hgle : (s.accounts.get ⟨i, hi⟩).staked_amount ≤ sumStaked s.accounts :=
        staked_le_sumStaked _ _ _
      simp only [stake] at hok
      split at hok
      · exact absurd hok (by simp)
      · simp only [Except.ok.injEq, Prod.mk.injEq] at hok
        obtain ⟨hgs, hu⟩ := hok
        have hustk : u'.staked_amount = (s.accounts.get ⟨i, hi⟩).staked_amount + amount := by
          rw [← hu]
          show (checked_add64
              (settle_accrual s.pool (s.accounts.get ⟨i, hi⟩) now).staked_amount
              amount).getD
            (settle_accrual s.pool (s.accounts.get ⟨i, hi⟩) now).staked_amount
              = (s.accounts.get ⟨i, hi⟩).staked_amount + amount
          rw [settle_accrual_staked]
          unfold checked_add64
          rw [if_pos (by omega)]
          rfl
        have htot : gs'.total_staked = sumStaked s.accounts + amount := by
          rw [← hgs]
          show (checked_add64 s.pool.total_staked amount).getD s.pool.total_staked
              = sumStaked s.accounts + amount
          rw [h1]
          unfold checked_add64
          rw [if_pos hb]
          rfl
        have hset := sumStaked_set s.accounts i hi u'
        constructor
        · show gs'.total_staked = sumStaked (s.accounts.set i u')
          omega
        · show sumStaked (s.accounts.set i u') < U64_MOD
          omega
  | unstake i hi amount now gs' u' w p hok =>
      have hgle : (s.accounts.get ⟨i, hi⟩).staked_amount ≤ sumStaked s.accounts :=
        staked_le_sumStaked _ _ _
      simp only [unstake] at hok
      split at hok
      · exact absurd hok (by simp)
      · rename_i hge
        rw [settle_accrual_staked] at hge
        simp only [Except.ok.injEq, Prod.mk.injEq] at hok
        obtain ⟨hgs, hu, hw, hp⟩ := hok
        have hustk : u'.staked_amount = (s.accounts.get ⟨i, hi⟩).staked_amount - amount := by
          rw [← hu]
          show (checked_sub64
              (settle_accrual s.pool (s.accounts.get ⟨i, hi⟩) now).staked_amount
              amount).getD 0
              = (s.accounts.get ⟨i, hi⟩).staked_amount - amount
          rw [settle_accrual_staked]
          unfold checked_sub64
          rw [if_pos (by omega)]
          rfl
        have htot : gs'.total_staked = sumStaked s.accounts - amount := by
          rw [← hgs]
          show (checked_sub64 s.pool.total_staked amount).getD 0
              = sumStaked s.accounts - amount
          rw [h1]
          unfold checked_sub64
          rw [if_pos (by omega)]
          rfl
        have hset := sumStaked_set s.accounts i hi u'
        constructor
        · show gs'.total_staked = sumStaked (s.accounts.set i u')
          omega
        · show sumStaked (s.accounts.set i u') < U64_MOD
          omega
  | claim i hi now gs' u' amt hok =>
      simp only [claim_rewards] at hok
      split at hok
      · exact absurd hok (by simp)
      · split at hok
        · exact absurd hok (by simp)
        · simp only [Except.ok.injEq, Prod.mk.injEq] at hok
          obtain ⟨hgs, hu, hamt⟩ := hok
          have hustk : u'.staked_amount = (s.accounts.get ⟨i, hi⟩).staked_amount := by
            rw [← hu]
            show (settle_accrual s.pool (s.accounts.get ⟨i, hi⟩) now).staked_amount
                = (s.accounts.get ⟨i, hi⟩).staked_amount
            rw [settle_accrual_staked]
          have htot : gs'.total_staked = s.pool.total_staked := by
            rw [← hgs]
          have hset := sumStaked_set s.accounts i hi u'
          constructor
          · show gs'.total_staked = sumStaked (s.accounts.set i u')
            omega
          · show sumStaked (s.accounts.set i u') < U64_MOD
            omega
  | compound i hi now gs' u' hb hok =>
      have hgle : (s.accounts.get ⟨i, hi⟩).staked_amount ≤ sumStaked s.accounts :=
        staked_le_sumStaked _ _ _
      simp only [compound_rewards] at hok
      split at hok
      · exact absurd hok (by simp)
      · simp only [Except.ok.injEq, Prod.mk.injEq] at hok
        obtain ⟨hgs, hu⟩ := hok
        have hustk : u'.staked_amount = (s.accounts.get ⟨i, hi⟩).staked_amount
            + (settle_accrual s.pool (s.accounts.get ⟨i, hi⟩) now).rewards := by
          rw [← hu]
          show (checked_add64
              (settle_accrual s.pool (s.accounts.get ⟨i, hi⟩) now).staked_amount
              (settle_accrual s.pool (s.accounts.get ⟨i, hi⟩) now).rewards).getD
            (settle_accrual s.pool (s.accounts.get ⟨i, hi⟩) now).staked_amount
              = _
          rw [settle_accrual_staked]
          unfold checked_add64
          rw [if_pos (by omega)]
          rfl
        have htot : gs'.total_staked = sumStaked s.accounts
            + (settle_accrual s.pool (s.accounts.get ⟨i, hi⟩) now).rewards := by
          rw [← hgs]
          show (checked_add64 s.pool.total_staked
              (settle_accrual s.pool (s.accounts.get ⟨i, hi⟩) now).rewards).getD
              s.pool.total_staked = _
          rw [h1]
          unfold checked_add64
          rw [if_pos hb]
          rfl
        have hset := sumStaked_set s.accounts i hi u'
        constructor
        · show gs'.total_staked = sumStaked (s.accounts.set i u')
          omega
        · show sumStaked (s.accounts.set i u') < U64_MOD
          omega

/-! Claim C1: the pool total equals the sum of account principals. -/

/-- Start state for the C1 counterexample: fresh pool with daily rate
2^64 - 10001 bps (fn initialize accepts any u64 rate) and no minimum
stake. -/
def c1Start : Sys := freshSys 1 2 3 (2 ^ 64 - 10001) 0 0 0 0 0

/-- C1 counterexample, after registering account 10. -/
def c1S1 : Sys := ⟨c1Start.pool, c1Start.accounts ++ [register_user 10 none]⟩

/-- C1 counterexample, after registering account 11. -/
def c1S2 : Sys := ⟨c1S1.pool, c1S1.accounts ++ [register_user 11 none]⟩

/-- Pool after account 10 stakes 10000 at time 0. -/
def c1GsA : GlobalState :=
  { authority := 1, token_mint := 2, vault := 3, reward_rate := 2 ^ 64 - 10001,
    unlock_duration := 0, early_unstake_penalty := 0, min_stake_amount := 0,
    referral_reward_rate := 0, total_staked := 10000, stakers_count := 1,
    reward_pool := 0, last_update_time := 0 }

/-- Account 10 after staking 10000 at time 0. -/
def c1UA : UserInfo :=
  { owner := 10, staked_amount := 10000, rewards := 0, last_stake_time := 0,
    last_claim_time := 0, referrer := none, referral_count := 0,
    total_referral_rewards := 0 }

/-- C1 counterexample, after the first stake. -/
def c1S3 : Sys := ⟨c1GsA, c1S2.accounts.set 0 c1UA⟩

/-- Pool after account 11 stakes 1 at time 0. -/
def c1GsB : GlobalState := { c1GsA with total_staked := 10001, stakers_count := 2 }

/-- Account 11 after staking 1 at time 0. -/
def c1UB : UserInfo :=
  { owner := 11, staked_amount := 1, rewards := 0, last_stake_time := 0,
    last_claim_time := 0, referrer := none, referral_count := 0,
    total_referral_rewards := 0 }

/-- C1 counterexample, after the second stake. -/
def c1S4 : Sys := ⟨c1GsB, c1S3.accounts.set 1 c1UB⟩

/-- Pool after account 10 compounds at time 86400: the total_staked
checked_add overflows (10001 + (2^64 - 10001) = 2^64) and silently keeps
10001, while the account-side addition fits. -/
def c1GsC : GlobalState := { c1GsB with last_update_time := 86400 }

/-- Account 10 after compounding its one-day accrual of 2^64 - 10001:
staked_amount lands exactly on u64::MAX. -/
def c1UC : UserInfo :=
  { owner := 10, staked_amount := 2 ^ 64 - 1, rewards := 0,
    last_stake_time := 86400, last_claim_time := 0, referrer := none,
    referral_count := 0, total_referral_rewards := 0 }

/-- Final state of the C1 counterexample. -/
def c1Bad : Sys := ⟨c1GsC, c1S4.accounts.set 0 c1UC⟩

/-- C1 counterexample: a five-instruction run from the fresh state
(register 10, register 11, stake 10000, stake 1, compound) reaches a
state whose pool total (10001) differs from the account sum (2^64):
compound_rewards adds the compounded amount to staked_amount and
total_staked through two independent checked_add calls whose unwrap_or
fallbacks can disagree — here the pool-side add overflows and keeps its
prior value while the account-side add succeeds. -/
theorem C1_counterexample :
    Reachable c1Start c1Bad ∧
    c1Bad.pool.total_staked ≠ sumStaked c1Bad.accounts := by
  constructor
  · exact Reachable.tail (Reachable.tail (Reachable.tail (Reachable.tail
      (Reachable.tail Reachable.refl
      (Step.register c1Start 10 none))
      (Step.register c1S1 11 none))
      (Step.stake c1S2 0 (by decide) 10000 0 c1GsA c1UA (by decide)))
      (Step.stake c1S3 1 (by decide) 1 0 c1GsB c1UB (by decide)))
      (Step.compound c1S4 0 (by decide) 86400 c1GsC c1UC (by decide))
  · decide

/-- C1 (amended): starting from any freshly initialized state, the pool
total_staked equals the sum of all accounts' staked_amount after every
sequence of successful register / stake / unstake / claim / compound
instructions, provided each addition into staked_amount or total_staked
stays below 2^64 (so no checked_add takes its silent prior-value
fallback); the counterexample shows the invariant breaks without that
proviso. -/
theorem C1_amended_sum_invariant (a tm v rate : Nat) (ud : Int)
    (pen ms rr : Nat) (t0 : Int) (s : Sys)
    (h : BoundedReachable (freshSys a tm v rate ud pen ms rr t0) s) :
    s.pool.total_staked = sumStaked s.accounts := by
  have key : s.pool.total_staked = sumStaked s.accounts ∧
      sumStaked s.accounts < U64_MOD := by
    induction h with
    | refl =>
        refine ⟨rfl, ?_⟩
        show sumStaked [] < U64_MOD
        decide
    | tail hr hstep ih => exact bounded_step_staked_inv hstep ih.1 ih.2
  exact key.1

/-- Start state for the C1 witness. -/
def c1wStart : Sys := freshSys 1 2 3 100 0 0 0 0 0

/-- C1 witness, after registering account 20. -/
def c1wS1 : Sys := ⟨c1wStart.pool, c1wStart.accounts ++ [register_user 20 none]⟩

/-- Pool after the C1 witness stake of 5. -/
def c1wGs : GlobalState :=
  { authority := 1, token_mint := 2, vault := 3, reward_rate := 100,
    unlock_duration := 0, early_unstake_penalty := 0, min_stake_amount := 0,
    referral_reward_rate := 0, total_staked := 5, stakers_count := 1,
    reward_pool := 0, last_update_time := 0 }

/-- Account 20 after the C1 witness stake of 5. -/
def c1wU : UserInfo :=
  { owner := 20, staked_amount := 5, rewards := 0, last_stake_time := 0,
    last_claim_time := 0, referrer := none, referral_count := 0,
    total_referral_rewards := 0 }

/-- Final state of the C1 witness run. -/
def c1wEnd : Sys := ⟨c1wGs, c1wS1.accounts.set 0 c1wU⟩

/-- C1 witness: after register and an overflow-free stake of 5, the pool
total equals the account sum, via the amended theorem. -/
theorem C1_witness : c1wEnd.pool.total_staked = sumStaked c1wEnd.accounts :=
  C1_amended_sum_invariant 1 2 3 100 0 0 0 0 0 c1wEnd
    (BoundedReachable.tail (BoundedReachable.tail BoundedReachable.refl
      (BoundedStep.register c1wStart 20 none))
      (BoundedStep.stake c1wS1 0 (by decide) 5 0 c1wGs c1wU (by decide) (by decide)))

/-! Claim C8: the pool penalty rate never exceeds 5000 bps. -/

/-- C8 counterexample start state: fn initialize stores an
early_unstake_penalty of 20000 bps without any validation. -/
def c8Start : Sys := freshSys 1 2 3 100 100 20000 0 500 0

/-- C8 counterexample: the state produced by initialize with penalty
20000 is reachable (the claim includes initialize among the public
operations) and violates the 5000-bps cap — only update_parameters
enforces the cap, initialize does not. -/
theorem C8_counterexample :
    Reachable c8Start c8Start ∧ ¬ c8Start.pool.early_unstake_penalty ≤ 5000 :=
  ⟨Reachable.refl, by decide⟩

/-- C8 (amended): if initialize is called with an early_unstake_penalty
of at most 5000, then every state reachable through the public
operations keeps early_unstake_penalty at most 5000 — update_parameters
rejects larger values and no other instruction writes the field. The
bound on the initialize argument is necessary: initialize itself
performs no validation (see the counterexample). -/
theorem C8_amended_penalty_invariant (a tm v rate : Nat) (ud : Int)
    (pen ms rr : Nat) (t0 : Int) (hpen : pen ≤ 5000) (s : Sys)
    (h : Reachable (freshSys a tm v rate ud pen ms rr t0) s) :
    s.pool.early_unstake_penalty ≤ 5000 := by
  induction h with
  | refl => simpa [freshSys, init_global_state] using hpen
  | tail hr hstep ih =>
      cases hstep with
      | register owner ref => exact ih
      | stake i hi amount now gs' u' hok =>
          have heq := stake_pool_penalty _ _ _ _ _ _ hok
          show gs'.early_unstake_penalty ≤ 5000
          omega
      | unstake i hi amount now gs' u' w p hok =>
          have heq := unstake_pool_penalty _ _ _ _ _ _ _ _ hok
          show gs'.early_unstake_penalty ≤ 5000
          omega
      | claim i hi now gs' u' amt hok =>
          have heq := claim_pool_penalty _ _ _ _ _ _ hok
          show gs'.early_unstake_penalty ≤ 5000
          omega
      | compound i hi now gs' u' hok =>
          have heq := compound_pool_penalty _ _ _ _ _ hok
          show gs'.early_unstake_penalty ≤ 5000
          omega
      | referrer_rewards i hi amt u' hok => exact ih
      | add_pool amount now =>
          show (add_to_reward_pool _ _ _).early_unstake_penalty ≤ 5000
          simpa [add_to_reward_pool] using ih
      | params rr2 ud2 pu ms2 rfr now gs' hok =>
          exact update_parameters_penalty_le _ _ _ _ _ _ _ _ ih hok

/-- C8 witness start state: initialized with penalty 4000 bps. -/
def c8wStart : Sys := freshSys 1 2 3 100 100 4000 0 500 0

/-- Pool of the C8 witness after update_parameters raises the penalty to
exactly 5000. -/
def c8wPool : GlobalState :=
  { authority := 1, token_mint := 2, vault := 3, reward_rate := 100,
    unlock_duration := 100, early_unstake_penalty := 5000, min_stake_amount := 0,
    referral_reward_rate := 500, total_staked := 0, stakers_count := 0,
    reward_pool := 0, last_update_time := 9 }

/-- Final state of the C8 witness run. -/
def c8wEnd : Sys := ⟨c8wPool, c8wStart.accounts⟩

/-- C8 witness: starting at penalty 4000 and updating it to 5000 via
update_parameters, the reached state still satisfies the cap, via the
amended theorem. -/
theorem C8_witness : c8wEnd.pool.early_unstake_penalty ≤ 5000 :=
  C8_amended_penalty_invariant 1 2 3 100 100 4000 0 500 0 (by decide) c8wEnd
    (Reachable.tail Reachable.refl
      (Step.params c8wStart none none (some 5000) none none 9 c8wPool (by decide)))

/-! Claim C7: behaviour of referral crediting on arithmetic overflow. -/

/-- Pool for the C7 counterexample: referral reward rate 500 bps. -/
def c7Pool : GlobalState :=
  { authority := 1, token_mint := 2, vault := 3, reward_rate := 0,
    unlock_duration := 0, early_unstake_penalty := 0, min_stake_amount := 0,
    referral_reward_rate := 500, total_staked := 0, stakers_count := 0,
    reward_pool := 0, last_update_time := 0 }

/-- Referrer account for the C7 counterexample: total_referral_rewards
already at u64::MAX, so crediting any further reward overflows. -/
def c7Referrer : UserInfo :=
  { owner := 9, staked_amount := 0, rewards := 0, last_stake_time := 0,
    last_claim_time := 0, referrer := none, referral_count := 0,
    total_referral_rewards := 2 ^ 64 - 1 }

/-- Referrer account after the C7 counterexample: rewards and
referral_count were credited, but the overflowing total_referral_rewards
addition silently kept the prior value. -/
def c7ReferrerAfter : UserInfo :=
  { owner := 9, staked_amount := 0, rewards := 500, last_stake_time := 0,
    last_claim_time := 0, referrer := none, referral_count := 1,
    total_referral_rewards := 2 ^ 64 - 1 }

/-- C7 counterexample: the staking program's referral propagator
(fn update_referrer_rewards) does NOT fail with MathOverflow when the
total_referral_rewards credit overflows — the checked_add falls back via
unwrap_or to the prior value and the instruction succeeds. -/
theorem C7_counterexample :
    update_referrer_rewards c7Pool c7Referrer 10000 = .ok c7ReferrerAfter ∧
    U64_MOD ≤ c7Referrer.total_referral_rewards
        + calculate_referral_reward 10000 c7Pool.referral_reward_rate ∧
    c7ReferrerAfter.total_referral_rewards = c7Referrer.total_referral_rewards := by
  refine ⟨by decide, by decide, by decide⟩

/-- C7 (amended): the two referral-crediting paths differ. The
referral-tracker program's record_referral uses checked arithmetic with
ok_or(MathOverflow) and fails with MathOverflow when crediting the
referrer's running totals or count overflows (each clause below names
the first overflowing addition, earlier ones succeeding); the staking
program's update_referrer_rewards instead silently retains every prior
value on overflow and never fails (see the counterexample). -/
theorem C7_amended_tracker_overflow_raises (prog : ReferralProgram)
    (ru : ReferredUser) (ri : TrackerUserInfo) (w amount : Nat) (code : String)
    (now : Int) (hamt : amount ≠ 0) (hcode : ¬ code.isEmpty)
    (hbound : ru.referrer = some ri.authority) (hmul : amount * 5 < U64_MOD) :
    (U64_MOD ≤ ri.total_referred + amount →
        record_referral prog ru ri w amount code now = .error .MathOverflow) ∧
    (ri.total_referred + amount < U64_MOD →
      U64_MOD ≤ ri.total_rewards_earned + amount * 5 / 100 →
        record_referral prog ru ri w amount code now = .error .MathOverflow) ∧
    (ri.total_referred + amount < U64_MOD →
      ri.total_rewards_earned + amount * 5 / 100 < U64_MOD →
      U64_MOD ≤ ri.referred_count + 1 →
        record_referral prog ru ri w amount code now = .error .MathOverflow) := by
  refine ⟨fun h1 => ?_, fun h1 h2 => ?_, fun h1 h2 h3 => ?_⟩
  · simp [record_referral, hamt, hcode, hbound, ok_or, checked_mul64,
      checked_add64, REFERRER_FEE_PERCENT, hmul, Nat.not_lt.mpr h1,
      Bind.bind, Except.bind, Functor.map, Except.map, Pure.pure, Except.pure,
      throw, throwThe, MonadExceptOf.throw]
  · simp [record_referral, hamt, hcode, hbound, ok_or, checked_mul64,
      checked_add64, REFERRER_FEE_PERCENT, hmul, h1, Nat.not_lt.mpr h2,
      Bind.bind, Except.bind, Functor.map, Except.map, Pure.pure, Except.pure,
      throw, throwThe, MonadExceptOf.throw]
  · simp [record_referral, hamt, hcode, hbound, ok_or, checked_mul64,
      checked_add64, REFERRER_FEE_PERCENT, hmul, h1, h2, Nat.not_lt.mpr h3,
      Bind.bind, Except.bind, Functor.map, Except.map, Pure.pure, Except.pure,
      throw, throwThe, MonadExceptOf.throw]

/-- Referrer state for the C7 witness: total_rewards_earned at u64::MAX
so the reward credit overflows inside record_referral. -/
def c7TrackerReferrer : TrackerUserInfo :=
  { authority := 5, referral_code := "ABC", total_referred := 0,
    total_rewards_earned := 2 ^ 64 - 1, claimable_rewards := 0,
    referred_count := 0 }

/-- Referred-user state for the C7 witness: already bound to referrer 5. -/
def c7Referred : ReferredUser := { authority := 6, referrer := some 5 }

/-- Program state for the C7 witness. -/
def c7Program : ReferralProgram :=
  { authority := 1, token_mint := 2, staking_vault := 3, marketing_wallet := 4,
    total_referred_amount := 0, total_referral_rewards := 0, referrer_count := 1 }

/-- C7 witness: a concrete record_referral of amount 100 (reward 5)
against a referrer whose total_rewards_earned is u64::MAX fails with
MathOverflow, via the amended theorem. -/
theorem C7_witness :
    record_referral c7Program c7Referred c7TrackerReferrer 6 100 "ABC" 0
        = .error .MathOverflow :=
  (C7_amended_tracker_overflow_raises c7Program c7Referred c7TrackerReferrer 6 100
      "ABC" 0 (by decide) (by decide) (by decide) (by decide)).2.1
    (by decide) (by decide)

/-! Claim C9: validation in update_parameters. -/

/-- Pool for the C9 counterexample. -/
def c9Pool : GlobalState :=
  { authority := 1, token_mint := 2, vault := 3, reward_rate := 100,
    unlock_duration := 100, early_unstake_penalty := 1000, min_stake_amount := 0,
    referral_reward_rate := 500, total_staked := 0, stakers_count := 0,
    reward_pool := 0, last_update_time := 0 }

/-- C9 counterexample: when the supplied referral_reward_rate (3000)
exceeds 2000 but the supplied early_unstake_penalty (6000) also exceeds
5000, the instruction fails with PenaltyTooHigh — the penalty check runs
first — not with ReferralRateTooHigh as the claim asserts for every call
with a referral rate above 2000. -/
theorem C9_counterexample :
    update_parameters c9Pool none none (some 6000) none (some 3000) 7
        = .error .PenaltyTooHigh ∧
    (2000 : Nat) < 3000 ∧
    update_parameters c9Pool none none (some 6000) none (some 3000) 7
        ≠ .error .ReferralRateTooHigh := by
  refine ⟨by decide, by decide, by decide⟩

/-- C9 (amended): a supplied early_unstake_penalty above 5000 always
fails with PenaltyTooHigh; a supplied referral_reward_rate above 2000
fails with ReferralRateTooHigh provided the supplied penalty (if any) is
within its own bound — when both bounds are violated the penalty check
fires first; and a supplied penalty of exactly 5000 together with a
non-violating referral rate succeeds and stores 5000. -/
theorem C9_amended_parameter_validation (gs : GlobalState) (rr : Option Nat)
    (ud : Option Int) (ms : Option Nat) (now : Int) :
    (∀ p, 5000 < p → ∀ rfr,
        update_parameters gs rr ud (some p) ms rfr now = .error .PenaltyTooHigh) ∧
    (∀ pu r, 2000 < r → (∀ p, pu = some p → p ≤ 5000) →
        update_parameters gs rr ud pu ms (some r) now
          = .error .ReferralRateTooHigh) ∧
    (∀ rfr, (∀ r, rfr = some r → r ≤ 2000) →
        ∃ gs', update_parameters gs rr ud (some 5000) ms rfr now = .ok gs' ∧
          gs'.early_unstake_penalty = 5000) := by
  refine ⟨?_, ?_, ?_⟩
  · intro p hp rfr
    simp [update_parameters, set_early_unstake_penalty, Nat.not_le.mpr hp]
  · intro pu r hr hpu
    have hr' : ¬ r ≤ 2000 := Nat.not_le.mpr hr
    cases pu with
    | none =>
        simp [update_parameters, set_early_unstake_penalty,
          set_referral_reward_rate, hr']
    | some p =>
        have hp : p ≤ 5000 := hpu p rfl
        simp [update_parameters, set_early_unstake_penalty,
          set_referral_reward_rate, hp, hr']
  · intro rfr hrfr
    cases rfr with
    | none =>
        cases ms with
        | none => exact ⟨_, rfl, rfl⟩
        | some m => exact ⟨_, rfl, rfl⟩
    | some r =>
        have hr : r ≤ 2000 := hrfr r rfl
        cases ms with
        | none =>
            simp only [update_parameters, set_early_unstake_penalty,
              if_pos (le_refl 5000), set_min_stake_amount,
              set_referral_reward_rate, if_pos hr]
            exact ⟨_, rfl, rfl⟩
        | some m =>
            simp only [update_parameters, set_early_unstake_penalty,
              if_pos (le_refl 5000), set_min_stake_amount,
              set_referral_reward_rate, if_pos hr]
            exact ⟨_, rfl, rfl⟩

/-- C9 witness: Scenario D of the spec at a concrete pool — penalty 5001
fails with PenaltyTooHigh, referral rate 2001 (with no penalty supplied)
fails with ReferralRateTooHigh, and penalty exactly 5000 succeeds, via
the amended theorem. -/
theorem C9_witness :
    update_parameters c9Pool none none (some 5001) none none 7
        = .error .PenaltyTooHigh ∧
    update_parameters c9Pool none none none none (some 2001) 7
        = .error .ReferralRateTooHigh ∧
    ∃ gs', update_parameters c9Pool none none (some 5000) none none 7 = .ok gs' ∧
      gs'.early_unstake_penalty = 5000 :=
  ⟨(C9_amended_parameter_validation c9Pool none none none 7).1 5001 (by decide) none,
    (C9_amended_parameter_validation c9Pool none none none 7).2.1 none 2001
      (by decide) (fun p hp => by cases hp),
    (C9_amended_parameter_validation c9Pool none none none 7).2.2 none
      (fun r hr => by cases hr)⟩
